import Mathlib

/-!
Verification of the iXBRL fact-extraction and analysis engine of
`bolagsverket_mcp_server.py` against its natural-language specification.

The Python source is shallowly embedded: strings are `List Char`, Python
`None`-able values are `Option`, Python exceptions are `Except PyExn`, and
CPython `float` values produced by `float(str)` are modelled exactly as
decimal significands `mant * 10 ^ exp10` (idealizing away IEEE-754 rounding
and overflow at parse time; the special values `inf` and `nan`, which
`float(str)` also accepts, are modelled explicitly).  Rational semantics of
a modelled float is given by `valQ`.  Derived ratio fields (percentages
produced by Python float division and `round(x, 2)`) are modelled over `ℚ`,
and the CAGR computation (which uses a real exponent `1/years`) over `ℝ`.
-/

/-! ## String primitives (Python `str` operations used by the source) -/

abbrev Str := List Char

def strL (s : String) : Str := s.toList

/-- Python `pat in s` style prefix test. -/
def isPrefixS : Str → Str → Bool
  | [], _ => true
  | _ :: _, [] => false
  | a :: as, b :: bs => a == b && isPrefixS as bs

/-- Python substring containment `pat in s`. -/
def containsS (pat : Str) : Str → Bool
  | [] => isPrefixS pat []
  | c :: rest => isPrefixS pat (c :: rest) || containsS pat rest

/-- Python `s.replace(c, '')` for a single character `c`. -/
def removeChar (c : Char) (s : Str) : Str := s.filter (fun x => !(x == c))

/-- Python `s.replace(c, d)` for single characters `c`, `d`. -/
def mapChar (c d : Char) (s : Str) : Str := s.map (fun x => if x == c then d else x)

def lowerS (s : Str) : Str := s.map Char.toLower

def isSpaceC (c : Char) : Bool := c == ' ' || c == '\t' || c == '\n' || c == '\r'

/-- Python `s.strip()` (whitespace at both ends). -/
def stripWS (s : Str) : Str := ((s.dropWhile isSpaceC).reverse.dropWhile isSpaceC).reverse

/-- Python `s.replace(pat, rep)` for a multi-character pattern, implemented
with a fuel argument (the length of `s` suffices: each step consumes at
least one character of the remainder). -/
def replaceSubstAux (pat rep : Str) : ℕ → Str → Str
  | 0, s => s
  | _ + 1, [] => []
  | fuel + 1, c :: rest =>
    if pat ≠ [] ∧ isPrefixS pat (c :: rest) then
      rep ++ replaceSubstAux pat rep fuel ((c :: rest).drop pat.length)
    else
      c :: replaceSubstAux pat rep fuel rest

def replaceSubst (pat rep s : Str) : Str := replaceSubstAux pat rep s.length s

/-- Decimal digits of a natural number, as in Python `str(i)` (fuel-based:
`n` itself bounds the number of recursive steps). -/
def natDigitsAux : ℕ → ℕ → Str
  | 0, n => [Nat.digitChar n]
  | fuel + 1, n => if n < 10 then [Nat.digitChar n] else natDigitsAux fuel (n / 10) ++ [Nat.digitChar (n % 10)]

def natDigits (n : ℕ) : Str := natDigitsAux n n

/-! ## Model of CPython `float(str)` / `int(str)` / `int(float)` -/

/-- The two Python exception classes relevant to the numeric pipeline.
`ValueError` is caught by the source's `except ValueError`; `OverflowError`
(raised by `int(float('inf'))`) is not. -/
inductive PyExn
  | valueError
  | overflowError
deriving DecidableEq

/-- The value of a CPython `float`, modelled exactly: a finite float is a
decimal significand `mant * 10 ^ exp10`, and the special values accepted by
`float(str)` are explicit. -/
inductive PyFloat
  | num (mant : ℤ) (exp10 : ℤ)
  | inf (neg : Bool)
  | nan
deriving DecidableEq

/-- Rational value of a finite modelled float `mant * 10 ^ exp10`. -/
def valQ (mant exp10 : ℤ) : ℚ := (mant : ℚ) * (10 : ℚ) ^ exp10

def natOfDigits (s : Str) : ℕ := s.foldl (fun a c => 10 * a + (c.toNat - '0'.toNat)) 0

/-- A nonempty all-digit string, as accepted by Python for `int(...)` and
for a float exponent part. -/
def parseDigitsZ (s : Str) : Option ℤ :=
  if s ≠ [] ∧ s.all Char.isDigit then some ((natOfDigits s : ℕ) : ℤ) else none

def parseSignedDigits : Str → Option ℤ
  | '+' :: r => parseDigitsZ r
  | '-' :: r => (parseDigitsZ r).map (fun z => -z)
  | r => parseDigitsZ r

/-- Python `int(s)`: strip whitespace, optional sign, nonempty digits. -/
def int_of_str (s : Str) : Option ℤ :=
  parseSignedDigits (stripWS s)

/-- Mantissa part of a float literal: `digits [. digits]`, at least one
digit overall.  Returns the integer significand, the decimal exponent
(minus the number of fraction digits) and the unconsumed remainder. -/
def parseDecMant (s : Str) : Option (ℕ × ℤ × Str) :=
  let ip := s.takeWhile Char.isDigit
  let r1 := s.dropWhile Char.isDigit
  match r1 with
  | '.' :: r2 =>
    let fp := r2.takeWhile Char.isDigit
    let r3 := r2.dropWhile Char.isDigit
    if ip.isEmpty && fp.isEmpty then none
    else some (natOfDigits (ip ++ fp), -(fp.length : ℤ), r3)
  | _ => if ip.isEmpty then none else some (natOfDigits ip, 0, r1)

/-- Unsigned numeric float literal: mantissa with optional `e`/`E` exponent. -/
def parsePyFloatNum (s : Str) : Option (ℤ × ℤ) :=
  match parseDecMant s with
  | none => none
  | some (m, ex, rest) =>
    match rest with
    | [] => some ((m : ℤ), ex)
    | c :: r =>
      if c == 'e' || c == 'E' then (parseSignedDigits r).map (fun x => ((m : ℤ), ex + x))
      else none

/-- Unsigned part of `float(s)`: `inf`/`infinity`/`nan` (case-insensitive)
or a numeric literal. -/
def parsePyFloatUnsigned (s : Str) : Option PyFloat :=
  if lowerS s == strL "inf" || lowerS s == strL "infinity" then some (.inf false)
  else if lowerS s == strL "nan" then some .nan
  else (parsePyFloatNum s).map (fun p => .num p.1 p.2)

def pyNegFloat : PyFloat → PyFloat
  | .num m e => .num (-m) e
  | .inf b => .inf (!b)
  | .nan => .nan

/-- Python `float(s)`: strip whitespace, optional sign, then the unsigned
literal. `none` models a raised `ValueError`. -/
def float_of_str (s : Str) : Option PyFloat :=
  match stripWS s with
  | '+' :: r => parsePyFloatUnsigned r
  | '-' :: r => (parsePyFloatUnsigned r).map pyNegFloat
  | r => parsePyFloatUnsigned r

/-- Multiplication of a float by `10 ** scale` (exact on the model; the
sign of an infinity is unchanged since `10 ** scale > 0`). -/
def pyMulPow10 : PyFloat → ℤ → PyFloat
  | .num m e, s => .num m (e + s)
  | .inf b, _ => .inf b
  | .nan, _ => .nan

/-- Python `-abs(x)` on a float. -/
def pyNegAbs : PyFloat → PyFloat
  | .num m e => .num (-|m|) e
  | .inf _ => .inf true
  | .nan => .nan

/-- Truncation toward zero of `mant * 10 ^ exp10`, i.e. Python
`int(float)` on a finite value, computed in exact integer arithmetic. -/
def decTrunc (mant exp10 : ℤ) : ℤ :=
  if 0 ≤ exp10 then mant * (10 : ℤ) ^ exp10.toNat
  else mant.sign * ((mant.natAbs / 10 ^ (-exp10).toNat : ℕ) : ℤ)

/-- Python `int(x)` for a float `x`: truncation on finite values,
`OverflowError` on infinities, `ValueError` on NaN. -/
def pyToInt : PyFloat → Except PyExn ℤ
  | .num m e => .ok (decTrunc m e)
  | .inf _ => .error .overflowError
  | .nan => .error .valueError

instance {ε α : Type} [DecidableEq ε] [DecidableEq α] : DecidableEq (Except ε α) := fun a b =>
  match a, b with
  | .ok x, .ok y =>
    match decEq x y with
    | isTrue h => isTrue (by rw [h])
    | isFalse h => isFalse (by intro hc; cases hc; exact h rfl)
  | .ok _, .error _ => isFalse (by intro hc; cases hc)
  | .error _, .ok _ => isFalse (by intro hc; cases hc)
  | .error x, .error y =>
    match decEq x y with
    | isTrue h => isTrue (by rw [h])
    | isFalse h => isFalse (by intro hc; cases hc; exact h rfl)

/-! ## The Numeric Normalizer (`IXBRLParser._get_value`, numeric branch) -/

/-- Separator normalization of `_get_value`: the two `numspace*` formats
strip spaces; `commadecimal` drops literal `.` then maps `,` to `.`;
`dotdecimal` drops `,`; the default branch strips spaces and maps `,` to
`.`; finally the minus-glyph variants `−` and `–` are mapped to `-`. -/
def normalize_number_text (value fmt : Str) : Str :=
  let v1 :=
    if containsS (strL "numspacecomma") fmt || containsS (strL "numspacedot") fmt then
      removeChar ' ' value
    else value
  let v2 :=
    if containsS (strL "commadecimal") fmt then mapChar ',' '.' (removeChar '.' v1)
    else if containsS (strL "dotdecimal") fmt then removeChar ',' v1
    else mapChar ',' '.' (removeChar ' ' v1)
  mapChar '–' '-' (mapChar '−' '-' v2)

/-- The numeric pipeline of `_get_value` after a tag is found: normalize
separators, `int(scale)`, `float(value) * 10 ** scale`, apply the `sign`
override, `int(...)`.  A `ValueError` anywhere in the `try` block yields
`None` (`.ok none`); an `OverflowError` escapes (`.error`). -/
def parse_scaled_signed (value fmt scaleAttr signAttr : Str) : Except PyExn (Option ℤ) :=
  let v := normalize_number_text value fmt
  match int_of_str scaleAttr with
  | none => .ok none
  | some scale =>
    match float_of_str v with
    | none => .ok none
    | some f =>
      let scaled := pyMulPow10 f scale
      let signed := if signAttr == strL "-" then pyNegAbs scaled else scaled
      match pyToInt signed with
      | .ok n => .ok (some n)
      | .error .valueError => .ok none
      | .error .overflowError => .error .overflowError

/-! ## Document model and the Fact Locator (`IXBRLParser._get_value`) -/

/-- An `ix:nonfraction` / `ix:nonnumeric` tag of the parsed document, with
the attributes the source reads (`None` = attribute absent). -/
structure Tag where
  tagType : Str
  name : Option Str := none
  contextref : Option Str := none
  text : Str := []
  scale : Option Str := none
  sign : Option Str := none
  format : Option Str := none
  tupleref : Option Str := none
deriving DecidableEq

/-- The name filter of `_get_value`: `x and name_pattern.lower() in
x.lower()` (attribute present, nonempty, case-insensitive substring). -/
def nameMatchesCI (pattern : Str) (t : Tag) : Bool :=
  match t.name with
  | none => false
  | some nm => !(nm == []) && containsS (lowerS pattern) (lowerS nm)

/-- The tag filter of `soup.find(tag_type, attrs)` as used in `_get_value`:
tag type, name filter, and exact `contextref` match when a context is
supplied. -/
def matchesFind (tagType pattern : Str) (ctx : Option Str) (t : Tag) : Bool :=
  t.tagType == tagType && nameMatchesCI pattern t &&
    (match ctx with
     | none => true
     | some c => t.contextref == some c)

/-- `_get_value(name_pattern, context, numeric=True)`: first matching
`ix:nonfraction` tag, then the numeric pipeline on its stripped text and
attributes (`scale` defaulting to `'0'`, `sign` and `format` to `''`). -/
def get_value_numeric (doc : List Tag) (pattern : Str) (ctx : Option Str) : Except PyExn (Option ℤ) :=
  match doc.find? (matchesFind (strL "ix:nonfraction") pattern ctx) with
  | none => .ok none
  | some t => parse_scaled_signed (stripWS t.text) (t.format.getD []) (t.scale.getD (strL "0")) (t.sign.getD [])

/-- `_get_value(name_pattern, context, numeric=False)`: first matching
`ix:nonnumeric` tag, stripped text. -/
def get_value_text (doc : List Tag) (pattern : Str) (ctx : Option Str) : Option Str :=
  match doc.find? (matchesFind (strL "ix:nonnumeric") pattern ctx) with
  | none => none
  | some t => some (stripWS t.text)

/-! ## KeyRatios (`Nyckeltal`) and derived ratios -/

/-- Round half to even (Python's `round`) of a rational, expressed without
case distinctions: `⌈x - 1/2⌉` and `⌊x + 1/2⌋` agree off ties and the
parity term selects the even neighbour on a tie. -/
def pyRoundHalfEvenQ (x : ℚ) : ℤ :=
  ⌈x - 1/2⌉ + (⌊x + 1/2⌋ - ⌈x - 1/2⌉) * (⌈x - 1/2⌉ % 2)

/-- Python `round(x, 2)` on a (model) float. -/
def pyRound2Q (x : ℚ) : ℚ := ((pyRoundHalfEvenQ (x * 100) : ℤ) : ℚ) / 100

/-- The `Nyckeltal` dataclass.  Integer fields come from `_get_value`;
`soliditet`, `vinstmarginal` and `roe` are Python floats, modelled as `ℚ`. -/
structure Nyckeltal where
  nettoomsattning : Option ℤ := none
  resultat_efter_finansiella : Option ℤ := none
  arets_resultat : Option ℤ := none
  eget_kapital : Option ℤ := none
  balansomslutning : Option ℤ := none
  soliditet : Option ℚ := none
  antal_anstallda : Option ℤ := none
  vinstmarginal : Option ℚ := none
  roe : Option ℚ := none
deriving DecidableEq

/-- First statement of `Nyckeltal.berakna_nyckeltal`: the guard is the
Python truthiness test `if self.nettoomsattning and self.arets_resultat`,
false for `None` and for `0` alike. -/
def berakna_step_vinstmarginal (nt : Nyckeltal) : Nyckeltal :=
  match nt.nettoomsattning, nt.arets_resultat with
  | some no, some ar =>
    if no ≠ 0 ∧ ar ≠ 0 then
      { nt with vinstmarginal := some (pyRound2Q ((ar : ℚ) / (no : ℚ) * 100)) }
    else nt
  | _, _ => nt

/-- Second statement of `Nyckeltal.berakna_nyckeltal`: the truthiness
guard additionally requires `eget_kapital > 0`. -/
def berakna_step_roe (nt : Nyckeltal) : Nyckeltal :=
  match nt.eget_kapital, nt.arets_resultat with
  | some ek, some ar =>
    if ek ≠ 0 ∧ ar ≠ 0 ∧ 0 < ek then
      { nt with roe := some (pyRound2Q ((ar : ℚ) / (ek : ℚ) * 100)) }
    else nt
  | _, _ => nt

/-- `Nyckeltal.berakna_nyckeltal`: the two sequential `if` statements. -/
def berakna_nyckeltal (nt : Nyckeltal) : Nyckeltal :=
  berakna_step_roe (berakna_step_vinstmarginal nt)

/-- `IXBRLParser.get_nyckeltal(period)`: one `_get_value` per concept
against the period (income) and `balans` (balance) contexts, with
`balansomslutning` falling back from `Tillgangar` to
`SummaEgetKapitalSkulder` via Python `or` (so also on a literal `0`), then
`berakna_nyckeltal`. -/
def get_nyckeltal (doc : List Tag) (period : Str) : Except PyExn Nyckeltal := do
  let balans := replaceSubst (strL "period") (strL "balans") period
  let nettoomsattning ← get_value_numeric doc (strL "Nettoomsattning") (some period)
  let resultat_efter_finansiella ← get_value_numeric doc (strL "ResultatEfterFinansiellaPoster") (some period)
  let arets_resultat ← get_value_numeric doc (strL "AretsResultat") (some period)
  let eget_kapital ← get_value_numeric doc (strL "EgetKapital") (some balans)
  let tillgangar ← get_value_numeric doc (strL "Tillgangar") (some balans)
  let balansomslutning ←
    match tillgangar with
    | some v =>
      if v ≠ 0 then pure (some v)
      else get_value_numeric doc (strL "SummaEgetKapitalSkulder") (some balans)
    | none => get_value_numeric doc (strL "SummaEgetKapitalSkulder") (some balans)
  let soliditet ← get_value_numeric doc (strL "Soliditet") (some balans)
  let antal_anstallda ← get_value_numeric doc (strL "MedelantalAnstallda") (some period)
  pure (berakna_nyckeltal
    { nettoomsattning, resultat_efter_finansiella, arets_resultat, eget_kapital,
      balansomslutning, soliditet := soliditet.map (fun n => (n : ℚ)), antal_anstallda })

def periodName (i : ℕ) : Str := strL "period" ++ natDigits i

/-! ## Risk Rule Engine (`analyze_roda_flaggor`, method and free function) -/

/-- A risk flag; only the rule kind and severity are modelled (the
description / value / recommendation strings of `RodFlagga` carry no logic). -/
structure RodFlagga where
  typ : Str
  allvarlighet : Str
deriving DecidableEq

/-- Rule 1: negative equity (critical).  Guard `eget_kapital and
eget_kapital < 0` (truthiness, then comparison). -/
def flagga_negativt_eget (nt : Nyckeltal) : List RodFlagga :=
  match nt.eget_kapital with
  | some ek => if ek ≠ 0 ∧ ek < 0 then [⟨strL "negativt_eget_kapital", strL "kritisk"⟩] else []
  | none => []

/-- Rule 2 (method only): equity below half the share capital (critical). -/
def flagga_lagt_eget (aktiekapital : Option ℤ) (nt : Nyckeltal) : List RodFlagga :=
  match aktiekapital, nt.eget_kapital with
  | some a, some ek =>
    if a ≠ 0 ∧ ek ≠ 0 ∧ (ek : ℚ) < (a : ℚ) / 2 then [⟨strL "lagt_eget_kapital", strL "kritisk"⟩] else []
  | _, _ => []

/-- Rule 3: revenue decline of more than 20% year over year (warning),
requiring prior revenue truthy and `> 0`. -/
def flagga_fallande (nt ntPrev : Nyckeltal) : List RodFlagga :=
  match nt.nettoomsattning, ntPrev.nettoomsattning with
  | some no, some noPrev =>
    if no ≠ 0 ∧ noPrev ≠ 0 ∧ 0 < noPrev ∧ (((no : ℚ) - (noPrev : ℚ)) / (noPrev : ℚ)) * 100 < -20 then
      [⟨strL "fallande_omsattning", strL "varning"⟩]
    else []
  | _, _ => []

/-- Rule 4: negative solvency (critical) else solvency below `threshold`
(warning).  The method uses `threshold = 20`, the free function `15`. -/
def flagga_soliditet (threshold : ℚ) (nt : Nyckeltal) : List RodFlagga :=
  match nt.soliditet with
  | some s =>
    if s < 0 then [⟨strL "negativ_soliditet", strL "kritisk"⟩]
    else if s < threshold then [⟨strL "lag_soliditet", strL "varning"⟩]
    else []
  | none => []

/-- Number of examined periods whose net income is present and negative
(`nt.arets_resultat is not None and nt.arets_resultat < 0`). -/
def negativeYearCount (nts : List Nyckeltal) : ℕ :=
  (nts.filter (fun n =>
    match n.arets_resultat with
    | some v => decide (v < 0)
    | none => false)).length

/-- Rule 5 (method only): repeated losses, counting the negative years of
periods 0-3 without any consecutiveness requirement; warning at exactly 2,
critical otherwise (i.e. at 3 or 4). -/
def flagga_upprepade (nts : List Nyckeltal) : List RodFlagga :=
  if 2 ≤ negativeYearCount nts then
    [⟨strL "upprepade_forluster", if negativeYearCount nts = 2 then strL "varning" else strL "kritisk"⟩]
  else []

/-- Rule 6 (method only): debt-to-equity above 3 with positive equity
(warning). -/
def flagga_skuldsattning (nt : Nyckeltal) : List RodFlagga :=
  match nt.eget_kapital, nt.balansomslutning with
  | some ek, some bal =>
    if ek ≠ 0 ∧ bal ≠ 0 ∧ 0 < ek ∧ 3 < ((bal : ℚ) - (ek : ℚ)) / (ek : ℚ) then
      [⟨strL "hog_skuldsattning", strL "varning"⟩]
    else []
  | _, _ => []

/-- Rule 7: profit margin below −10% (warning). -/
def flagga_vinstmarginal (nt : Nyckeltal) : List RodFlagga :=
  match nt.vinstmarginal with
  | some v => if v < -10 then [⟨strL "negativ_vinstmarginal", strL "varning"⟩] else []
  | none => []

/-- The seven rules of `IXBRLParser.analyze_roda_flaggor`, in source
order, over the already-fetched values. -/
def roda_flaggor_pure (nt ntPrev : Nyckeltal) (aktiekapital : Option ℤ) (nts : List Nyckeltal) : List RodFlagga :=
  flagga_negativt_eget nt ++ flagga_lagt_eget aktiekapital nt ++ flagga_fallande nt ntPrev ++
    flagga_soliditet 20 nt ++ flagga_upprepade nts ++ flagga_skuldsattning nt ++ flagga_vinstmarginal nt

/-- `IXBRLParser.analyze_roda_flaggor`: fetches `period0`/`period1`
ratios, the share capital, and the four period records for the
repeated-loss count (the fetches appear in source order; the flag
construction between them is pure). -/
def analyze_roda_flaggor (doc : List Tag) : Except PyExn (List RodFlagga) := do
  let nyckeltal ← get_nyckeltal doc (strL "period0")
  let nyckeltal_prev ← get_nyckeltal doc (strL "period1")
  let aktiekapital ← get_value_numeric doc (strL "Aktiekapital") (some (strL "balans0"))
  let nts ← (List.range 4).mapM (fun i => get_nyckeltal doc (periodName i))
  pure (roda_flaggor_pure nyckeltal nyckeltal_prev aktiekapital nts)

/-- The module-level `analyze_roda_flaggor(parser, nyckeltal,
nyckeltal_prev=None)`: rules 1, 3 (only when a previous record is given),
4 with threshold 15, and 7. -/
def analyze_roda_flaggor_fn (nyckeltal : Nyckeltal) (nyckeltal_prev : Option Nyckeltal) : List RodFlagga :=
  flagga_negativt_eget nyckeltal ++
    (match nyckeltal_prev with
     | some prev => flagga_fallande nyckeltal prev
     | none => []) ++
    flagga_soliditet 15 nyckeltal ++ flagga_vinstmarginal nyckeltal

/-! ## Multi-period series (`fetch_full_arsredovisning`, flerårsdata loop) -/

/-- Python truthiness of an `Optional[int]`. -/
def truthy : Option ℤ → Bool
  | some n => n != 0
  | none => false

/-- The `for i in range(5)` loop of `fetch_full_arsredovisning`: each
period's record is appended when revenue or net income is truthy; a period
that yields neither is skipped and the loop continues. -/
def flerarsdataAux (doc : List Tag) : List ℕ → List (ℕ × Nyckeltal) → Except PyExn (List (ℕ × Nyckeltal))
  | [], acc => .ok acc
  | i :: rest, acc =>
    match get_nyckeltal doc (periodName i) with
    | .error e => .error e
    | .ok nt =>
      if truthy nt.nettoomsattning || truthy nt.arets_resultat then
        flerarsdataAux doc rest (acc ++ [(i, nt)])
      else
        flerarsdataAux doc rest acc

def flerarsdata (doc : List Tag) : Except PyExn (List (ℕ × Nyckeltal)) :=
  flerarsdataAux doc (List.range 5) []

def flerarsPeriods (doc : List Tag) : Except PyExn (List ℕ) :=
  (flerarsdata doc).map (fun l => l.map (fun p => p.1))

/-- Whether period `i` yields revenue or net income (the loop's guard). -/
def hasRevenueOrIncome (doc : List Tag) (i : ℕ) : Except PyExn Bool :=
  (get_nyckeltal doc (periodName i)).map (fun nt => truthy nt.nettoomsattning || truthy nt.arets_resultat)

/-! ## Roster extraction (`IXBRLParser.get_personer`) -/

structure Person where
  fornamn : Str
  efternamn : Str
  roll : Str
deriving DecidableEq

def personKey (p : Person) : Str × Str × Str := (p.fornamn, p.efternamn, p.roll)

/-- The three (first-name, last-name, role) tag families scanned by
`get_personer`. -/
def personPatterns : List (Str × Str × Option Str) :=
  [(strL "UnderskriftFaststallelseintygForetradareTilltalsnamn",
    strL "UnderskriftFaststallelseintygForetradareEfternamn",
    some (strL "UnderskriftFaststallelseintygForetradareForetradarroll")),
   (strL "UnderskriftHandlingTilltalsnamn", strL "UnderskriftHandlingEfternamn", none),
   (strL "UnderskriftRevisionsberattelseRevisorTilltalsnamn",
    strL "UnderskriftRevisionsberattelseRevisorEfternamn",
    some (strL "UnderskriftRevisionsberattelseRevisorTitel"))]

/-- The name filter of the `find_all` / tuple lookups in `get_personer`:
present, nonempty, case-sensitive substring. -/
def nameHasCS (pat : Str) (t : Tag) : Bool :=
  match t.name with
  | none => false
  | some nm => !(nm == []) && containsS pat nm

def findAllNN (doc : List Tag) (pat : Str) : List Tag :=
  doc.filter (fun t => t.tagType == strL "ix:nonnumeric" && nameHasCS pat t)

def findNNByTuple (doc : List Tag) (pat : Str) (tr : Str) : Option Tag :=
  doc.find? (fun t => t.tagType == strL "ix:nonnumeric" && nameHasCS pat t && t.tupleref == some tr)

/-- One candidate person from a first-name tag: last name and role are
resolved through the shared `tupleref` when present; an empty role falls
back to the tag-family heuristic. -/
def personFromTag (doc : List Tag) (fPat ePat : Str) (rPat : Option Str) (tag : Tag) : Person :=
  let fornamn := stripWS tag.text
  let ef_roll : Str × Str :=
    match tag.tupleref with
    | none => ([], [])
    | some tr =>
      let efternamn :=
        match findNNByTuple doc ePat tr with
        | some t => stripWS t.text
        | none => []
      let roll :=
        match rPat with
        | none => []
        | some rp =>
          match findNNByTuple doc rp tr with
          | some t => stripWS t.text
          | none => []
      (efternamn, roll)
  let roll :=
    if ef_roll.2 == [] then
      if containsS (strL "Revisor") fPat then strL "Revisor"
      else if containsS (strL "Foretradar") fPat then strL "Företrädare"
      else strL "Styrelseledamot"
    else ef_roll.2
  ⟨fornamn, ef_roll.1, roll⟩

def personCandidates (doc : List Tag) : List Person :=
  personPatterns.foldr
    (fun p acc => (findAllNN doc p.1).map (personFromTag doc p.1 p.2.1 p.2.2) ++ acc) []

/-- The dedup loop of `get_personer`: `if key not in seen and fornamn:`
appends and records the key, otherwise skips. -/
def dedupPersoner : List Person → List (Str × Str × Str) → List Person → List Person
  | [], _, out => out
  | p :: rest, seen, out =>
    if personKey p ∉ seen ∧ p.fornamn ≠ [] then
      dedupPersoner rest (seen ++ [personKey p]) (out ++ [p])
    else
      dedupPersoner rest seen out

def get_personer (doc : List Tag) : List Person :=
  dedupPersoner (personCandidates doc) [] []

/-! ## Trend engine (`calculate_cagr`) -/

/-- Round half to even on `ℝ` (Python `round` for floats), same shape as
`pyRoundHalfEvenQ`. -/
noncomputable def pyRoundHalfEvenR (x : ℝ) : ℤ :=
  ⌈x - 1/2⌉ + (⌊x + 1/2⌋ - ⌈x - 1/2⌉) * (⌈x - 1/2⌉ % 2)

/-- Python `round(x, 2)` on `ℝ`. -/
noncomputable def pyRound2R (x : ℝ) : ℝ := ((pyRoundHalfEvenR (x * 100) : ℤ) : ℝ) / 100

/-- `calculate_cagr(values, years)`: guards, then
`((end/start) ** (1/years) - 1) * 100` rounded to two decimals.
`values[-1]`/`values[0]` are modelled with `getLastD`/`headD`; the guard
keeps the list nonempty so the defaults are never used.  The source's
`except` is unreachable for inputs passing the guards (positive base). -/
noncomputable def calculate_cagr (values : List ℤ) (years : ℤ) : Option ℝ :=
  if values = [] ∨ values.length < 2 ∨ years < 1 then none
  else
    let start_value := values.getLastD 0
    let end_value := values.headD 0
    if start_value ≤ 0 ∨ end_value ≤ 0 then none
    else
      some (pyRound2R ((((end_value : ℝ) / (start_value : ℝ)) ^ ((1 : ℝ) / (years : ℝ)) - 1) * 100))

/-! ## Concrete documents and records used by the claim theorems -/

def mkNF (name ctx text : String) : Tag :=
  { tagType := strL "ix:nonfraction", name := some (strL name),
    contextref := some (strL ctx), text := strL text }

def mkNN (name text tr : String) : Tag :=
  { tagType := strL "ix:nonnumeric", name := some (strL name),
    text := strL text, tupleref := some (strL tr) }

/-- Statement with equity −50,000 and nothing else. -/
def doc6a : List Tag := [mkNF "se-gen-base:EgetKapital" "balans0" "-50000"]

/-- Statement with equity 5,000,000 and solvency 10%. -/
def doc6b : List Tag :=
  [mkNF "se-gen-base:EgetKapital" "balans0" "5000000", mkNF "se-gen-base:Soliditet" "balans0" "10"]

/-- Statement with negative solvency. -/
def doc6c : List Tag := [mkNF "se-gen-base:Soliditet" "balans0" "-5"]

/-- Statement with solvency 17%, between the two low-solvency thresholds. -/
def doc6d : List Tag := [mkNF "se-gen-base:Soliditet" "balans0" "17"]

def nt6a : Nyckeltal := { eget_kapital := some (-50000) }

def nt6b : Nyckeltal := { eget_kapital := some 5000000, soliditet := some 10 }

def nt6c : Nyckeltal := { soliditet := some (-5) }

def nt6d : Nyckeltal := { soliditet := some 17 }

/-- Statement with negative net income in periods 0 and 2 and positive net
income in periods 1 and 3 (no two consecutive loss years). -/
def doc7 : List Tag :=
  [mkNF "se-gen-base:AretsResultat" "period0" "-5",
   mkNF "se-gen-base:AretsResultat" "period1" "10",
   mkNF "se-gen-base:AretsResultat" "period2" "-5",
   mkNF "se-gen-base:AretsResultat" "period3" "10"]

/-- Net income of period `i` as seen through `get_nyckeltal`. -/
def aretsAt (doc : List Tag) (i : ℕ) : Except PyExn (Option ℤ) :=
  (get_nyckeltal doc (periodName i)).map (fun nt => nt.arets_resultat)

/-- Statement with revenue in periods 0 and 2 but no data in period 1. -/
def doc8 : List Tag :=
  [mkNF "se-gen-base:Nettoomsattning" "period0" "100",
   mkNF "se-gen-base:Nettoomsattning" "period2" "200"]

def nt8a : Nyckeltal := { nettoomsattning := some 100 }

def nt8b : Nyckeltal := { nettoomsattning := some 200 }

/-- The per-period records `get_nyckeltal` produces on `doc8`. -/
def f8 : ℕ → Nyckeltal := fun i => if i = 0 then nt8a else if i = 2 then nt8b else {}

/-- Same (first name, last name, role) in two tag families: the
certification-signatory family carries an explicit role tag whose text
coincides with the filing-signatory family's fallback role. -/
def doc9b : List Tag :=
  [mkNN "se-bol-base:UnderskriftFaststallelseintygForetradareTilltalsnamn" "Anna" "t1",
   mkNN "se-bol-base:UnderskriftFaststallelseintygForetradareEfternamn" "Svensson" "t1",
   mkNN "se-bol-base:UnderskriftFaststallelseintygForetradareForetradarroll" "Styrelseledamot" "t1",
   mkNN "se-bol-base:UnderskriftHandlingTilltalsnamn" "Anna" "t2",
   mkNN "se-bol-base:UnderskriftHandlingEfternamn" "Svensson" "t2"]

/-- Same name, different roles across the two families. -/
def doc9c : List Tag :=
  [mkNN "se-bol-base:UnderskriftFaststallelseintygForetradareTilltalsnamn" "Anna" "t1",
   mkNN "se-bol-base:UnderskriftFaststallelseintygForetradareEfternamn" "Svensson" "t1",
   mkNN "se-bol-base:UnderskriftFaststallelseintygForetradareForetradarroll" "VD" "t1",
   mkNN "se-bol-base:UnderskriftHandlingTilltalsnamn" "Anna" "t2",
   mkNN "se-bol-base:UnderskriftHandlingEfternamn" "Svensson" "t2"]

def nt4z : Nyckeltal := { eget_kapital := some 100, arets_resultat := some 0 }

def nt4a : Nyckeltal := { eget_kapital := some (-100), arets_resultat := some 10 }

def nt4b : Nyckeltal := { eget_kapital := some 200, arets_resultat := some 10 }

/-! ## Helper lemmas about truncation and rounding -/

theorem decTrunc_nonpos (m e : ℤ) (hm : m ≤ 0) : decTrunc m e ≤ 0 := by
  unfold decTrunc
  split
  · have h10 : (0 : ℤ) ≤ 10 ^ e.toNat := by positivity
    nlinarith
  · rcases lt_or_eq_of_le hm with h | h
    · rw [Int.sign_eq_neg_one_of_neg h]
      have h2 : (0 : ℤ) ≤ ((m.natAbs / 10 ^ (-e).toNat : ℕ) : ℤ) := Int.natCast_nonneg _
      nlinarith
    · subst h
      simp

theorem pow10_pos (E : ℤ) : (0 : ℚ) < (10 : ℚ) ^ E := by positivity

theorem zpow_toNat_of_nonneg {E : ℤ} (hE : 0 ≤ E) : (10 : ℚ) ^ E = (10 : ℚ) ^ E.toNat := by
  rw [← zpow_natCast (10 : ℚ) E.toNat, Int.toNat_of_nonneg hE]

theorem zpow_neg_toNat {E : ℤ} (hE : ¬ 0 ≤ E) : (10 : ℚ) ^ E = ((10 : ℚ) ^ (-E).toNat)⁻¹ := by
  rw [← zpow_natCast (10 : ℚ) (-E).toNat, Int.toNat_of_nonneg (by omega : (0:ℤ) ≤ -E), zpow_neg,
    inv_inv]

theorem decTrunc_integral (m E n : ℤ) (h : valQ m E = (n : ℚ)) : decTrunc m E = n := by
  unfold valQ at h
  unfold decTrunc
  split
  case isTrue hE =>
    rw [zpow_toNat_of_nonneg hE] at h
    have h2 : ((m * 10 ^ E.toNat : ℤ) : ℚ) = ((n : ℤ) : ℚ) := by push_cast; exact h
    exact_mod_cast h2
  case isFalse hE =>
    rw [zpow_neg_toNat hE] at h
    set k := (-E).toNat with hk
    have hkpos : (0 : ℚ) < (10 : ℚ) ^ k := by positivity
    have hm : (m : ℚ) = (n : ℚ) * (10 : ℚ) ^ k := by
      field_simp at h
      linarith [h]
    have hmz : m = n * 10 ^ k := by exact_mod_cast hm
    rw [hmz, Int.natAbs_mul, Int.sign_mul]
    have h10 : (0 : ℤ) < 10 ^ k := by positivity
    rw [Int.sign_eq_one_of_pos h10]
    have habs : ((10 : ℤ) ^ k).natAbs = 10 ^ k := by
      simp [Int.natAbs_pow]
    rw [habs, Nat.mul_div_cancel _ (by positivity : 0 < 10 ^ k), mul_one]
    exact_mod_cast Int.sign_mul_natAbs n

theorem valQ_negAbs (m E : ℤ) : valQ (-|m|) E = -|valQ m E| := by
  unfold valQ
  rw [abs_mul, abs_of_pos (pow10_pos E)]
  push_cast [Int.cast_abs]
  ring

theorem decTrunc_cast_eq_of_nonneg (m E : ℤ) (hE : 0 ≤ E) :
    ((decTrunc m E : ℤ) : ℚ) = valQ m E := by
  unfold decTrunc valQ
  rw [if_pos hE, zpow_toNat_of_nonneg hE]
  push_cast
  ring

theorem decTrunc_abs_bounds (m E : ℤ) :
    |((decTrunc m E : ℤ) : ℚ)| ≤ |valQ m E| ∧ |valQ m E| < |((decTrunc m E : ℤ) : ℚ)| + 1 := by
  by_cases hE : 0 ≤ E
  · rw [decTrunc_cast_eq_of_nonneg m E hE]
    exact ⟨le_refl _, lt_add_one _⟩
  · by_cases hm0 : m = 0
    · have h1 : decTrunc m E = 0 := by unfold decTrunc; subst hm0; split <;> simp
      have h2 : valQ m E = 0 := by unfold valQ; subst hm0; simp
      rw [h1, h2]
      norm_num
    · set k := (-E).toNat with hk
      set d := m.natAbs / 10 ^ k with hd
      have hkpos : (0 : ℚ) < (10 : ℚ) ^ k := by positivity
      have hvq : |valQ m E| = (m.natAbs : ℚ) / (10 : ℚ) ^ k := by
        unfold valQ
        rw [zpow_neg_toNat hE, abs_mul, abs_inv, abs_of_pos hkpos, ← Int.cast_abs,
          Int.abs_eq_natAbs, Int.cast_natCast]
        ring
      have habs : |((decTrunc m E : ℤ) : ℚ)| = (d : ℚ) := by
        have hdt : decTrunc m E = m.sign * (d : ℤ) := by
          unfold decTrunc
          rw [if_neg hE]
        rw [hdt]
        push_cast
        rw [abs_mul]
        rcases lt_or_gt_of_ne hm0 with h | h
        · rw [Int.sign_eq_neg_one_of_neg h]
          norm_num
        · rw [Int.sign_eq_one_of_pos h]
          norm_num
      have h1 : d * 10 ^ k ≤ m.natAbs := Nat.div_mul_le_self m.natAbs (10 ^ k)
      have h2 : m.natAbs < (d + 1) * 10 ^ k := by
        rw [hd]
        exact (Nat.div_lt_iff_lt_mul (by positivity : 0 < 10 ^ k)).mp (Nat.lt_succ_self _)
      constructor
      · rw [habs, hvq, le_div_iff₀ hkpos]
        exact_mod_cast h1
      · rw [habs, hvq, div_lt_iff₀ hkpos]
        exact_mod_cast h2

theorem pyRoundHalfEvenQ_intCast (n : ℤ) : pyRoundHalfEvenQ ((n : ℤ) : ℚ) = n := by
  unfold pyRoundHalfEvenQ
  have hc : ⌈((n : ℤ) : ℚ) - 1/2⌉ = n := by
    rw [Int.ceil_eq_iff]
    constructor <;> [push_cast; push_cast] <;> linarith
  have hf : ⌊((n : ℤ) : ℚ) + 1/2⌋ = n := by
    rw [Int.floor_eq_iff]
    constructor <;> [push_cast; push_cast] <;> linarith
  rw [hc, hf]
  ring

theorem pyRound2Q_intCast (n : ℤ) : pyRound2Q ((n : ℤ) : ℚ) = ((n : ℤ) : ℚ) := by
  unfold pyRound2Q
  have h : ((n : ℤ) : ℚ) * 100 = (((n * 100 : ℤ)) : ℚ) := by push_cast; ring
  rw [h, pyRoundHalfEvenQ_intCast]
  push_cast
  field_simp

theorem pyRoundHalfEvenR_intCast (n : ℤ) : pyRoundHalfEvenR ((n : ℤ) : ℝ) = n := by
  unfold pyRoundHalfEvenR
  have hc : ⌈((n : ℤ) : ℝ) - 1/2⌉ = n := by
    rw [Int.ceil_eq_iff]
    constructor <;> [push_cast; push_cast] <;> linarith
  have hf : ⌊((n : ℤ) : ℝ) + 1/2⌋ = n := by
    rw [Int.floor_eq_iff]
    constructor <;> [push_cast; push_cast] <;> linarith
  rw [hc, hf]
  ring

theorem valQ_neg_nat (m : ℤ) (k : ℕ) : valQ m (-(k : ℤ)) = (m : ℚ) / 10 ^ k := by
  unfold valQ
  rw [zpow_neg, zpow_natCast]
  ring

/-! ## Claim theorems -/

/-- C1 (amended): for a numeric fact whose tag carries `sign="-"`, the
Numeric Normalizer returns the truncation toward zero of
`-abs(parsed_magnitude * 10 ^ scale)`, overriding any literal minus sign
in the raw text; the result is never positive, and whenever the scaled
magnitude is an integer `n` it is exactly `-abs(n)`. -/
theorem c1_sign_override_amended (raw fmt sc : Str) (m e s : ℤ)
    (hf : float_of_str (normalize_number_text raw fmt) = some (.num m e))
    (hs : int_of_str sc = some s) :
    parse_scaled_signed raw fmt sc (strL "-") = .ok (some (decTrunc (-|m|) (e + s)))
    ∧ decTrunc (-|m|) (e + s) ≤ 0
    ∧ ∀ n : ℤ, valQ m (e + s) = (n : ℚ) → decTrunc (-|m|) (e + s) = -|n| := by
  refine ⟨?_, ?_, ?_⟩
  · simp [parse_scaled_signed, hs, hf, pyMulPow10, pyNegAbs, pyToInt]
  · exact decTrunc_nonpos _ _ (neg_nonpos.mpr (abs_nonneg m))
  · intro n hn
    have h1 : valQ (-|m|) (e + s) = ((-|n| : ℤ) : ℚ) := by
      rw [valQ_negAbs, hn]
      push_cast [Int.cast_abs]
      ring
    exact decTrunc_integral _ _ _ h1

/-- C1 (witness): raw text `"100"` with `scale="3"` and `sign="-"` yields
−100000. -/
theorem c1_sign_override_witness :
    parse_scaled_signed (strL "100") [] (strL "3") (strL "-") = .ok (some (-100000)) := by
  have h := (c1_sign_override_amended (strL "100") [] (strL "3") 100 0 3 (by decide) (by decide)).1
  exact h.trans (by decide)

/-- C1 (counterexample): raw text `"1.5"` (scale 0, sign negative) parses
to magnitude 1.5 (`valQ 15 (-1)`), but the Normalizer returns the integer
−1, not `-abs(1.5) = -1.5` as the claim's formula states. -/
theorem c1_sign_override_counterexample :
    float_of_str (normalize_number_text (strL "1.5") []) = some (.num 15 (-1))
    ∧ parse_scaled_signed (strL "1.5") [] (strL "0") (strL "-") = .ok (some (-1))
    ∧ ((-1 : ℤ) : ℚ) ≠ -|valQ 15 (-1)| := by
  refine ⟨by decide, by decide, ?_⟩
  have hv : valQ 15 (-1) = 3/2 := by
    rw [show (-1 : ℤ) = -((1 : ℕ) : ℤ) by norm_num, valQ_neg_nat]
    norm_num
  rw [hv, abs_of_pos (by norm_num : (0:ℚ) < 3/2)]
  norm_num

/-- C2: separator resolution by format before parsing — comma-decimal
drops `.` and maps `,` to `.`, dot-decimal drops `,`, and the default
strips spaces and maps `,` to `.`; hence `"1.234,56"` (comma-decimal),
`"1,234.56"` (dot-decimal) and `"1 234,56"` (default) all parse to the
float 1234.56. -/
theorem c2_separator_normalization :
    normalize_number_text (strL "1.234,56") (strL "ixt:numcommadecimal") = strL "1234.56"
    ∧ normalize_number_text (strL "1,234.56") (strL "ixt:numdotdecimal") = strL "1234.56"
    ∧ normalize_number_text (strL "1 234,56") [] = strL "1234.56"
    ∧ float_of_str (strL "1234.56") = some (.num 123456 (-2))
    ∧ valQ 123456 (-2) = 123456 / 100 := by
  refine ⟨by decide, by decide, by decide, by decide, ?_⟩
  rw [show (-2 : ℤ) = -((2 : ℕ) : ℤ) by norm_num, valQ_neg_nat]
  norm_num

/-- C3: the claim that the Numeric Normalizer is total and never raises is
wrong on the code: raw text `"inf"` is accepted by `float()` and the later
`int(...)` raises an `OverflowError` which the `except ValueError` clause
does not catch.  Genuinely unparseable text (`"abc"`) and an absent
concept both do yield `None`, as the claim says. -/
theorem c3_normalizer_overflow_escape :
    parse_scaled_signed (strL "inf") [] (strL "0") [] = .error .overflowError
    ∧ parse_scaled_signed (strL "abc") [] (strL "0") [] = .ok none
    ∧ get_value_numeric [] (strL "Nettoomsattning") none = .ok none := by
  exact ⟨by decide, by decide, by decide⟩

/-- C10: without a sign override the Numeric Normalizer returns the
truncation toward zero of the scaled parsed magnitude as a Python `int`:
the returned integer is within 1 of the exact scaled magnitude
(`valQ m (e+s)`) and never exceeds it in absolute value — any fractional
part is discarded. -/
theorem c10_truncation (raw fmt sc sg : Str) (m e s : ℤ)
    (hf : float_of_str (normalize_number_text raw fmt) = some (.num m e))
    (hs : int_of_str sc = some s)
    (hsg : (sg == strL "-") = false) :
    parse_scaled_signed raw fmt sc sg = .ok (some (decTrunc m (e + s)))
    ∧ |((decTrunc m (e + s) : ℤ) : ℚ)| ≤ |valQ m (e + s)|
    ∧ |valQ m (e + s)| < |((decTrunc m (e + s) : ℤ) : ℚ)| + 1 := by
  refine ⟨?_, (decTrunc_abs_bounds m (e + s)).1, (decTrunc_abs_bounds m (e + s)).2⟩
  simp [parse_scaled_signed, hs, hf, hsg, pyMulPow10, pyToInt]

/-- C10 (witness): raw `"1234.56"` with scale 0 is returned as the integer
1234; the fractional part is discarded (1234 is not the parsed magnitude
1234.56). -/
theorem c10_truncation_witness :
    parse_scaled_signed (strL "1234.56") [] (strL "0") [] = .ok (some 1234)
    ∧ valQ 123456 (-2) ≠ ((1234 : ℤ) : ℚ) := by
  constructor
  · have h := (c10_truncation (strL "1234.56") [] (strL "0") [] 123456 (-2) 0
      (by decide) (by decide) (by decide)).1
    exact h.trans (by decide)
  · rw [show (-2 : ℤ) = -((2 : ℕ) : ℤ) by norm_num, valQ_neg_nat]
    norm_num

/-- The profit-margin step never touches `eget_kapital`,
`arets_resultat` or `roe`. -/
theorem vinst_step_fields (nt : Nyckeltal) :
    (berakna_step_vinstmarginal nt).eget_kapital = nt.eget_kapital
    ∧ (berakna_step_vinstmarginal nt).arets_resultat = nt.arets_resultat
    ∧ (berakna_step_vinstmarginal nt).roe = nt.roe := by
  unfold berakna_step_vinstmarginal
  rcases h1 : nt.nettoomsattning with _ | no <;> rcases h2 : nt.arets_resultat with _ | ar <;>
    dsimp only <;>
    refine ⟨?_, ?_, ?_⟩ <;>
    first
      | rfl
      | exact h2
      | (split_ifs <;> first | rfl | exact h2)

/-- The `roe` field after `berakna_nyckeltal`, as a function of the
input record. -/
theorem berakna_roe (nt : Nyckeltal) :
    (berakna_nyckeltal nt).roe =
      match nt.eget_kapital, nt.arets_resultat with
      | some ek, some ar =>
        if ek ≠ 0 ∧ ar ≠ 0 ∧ 0 < ek then some (pyRound2Q ((ar : ℚ) / (ek : ℚ) * 100)) else nt.roe
      | _, _ => nt.roe := by
  obtain ⟨hek, har, hroe⟩ := vinst_step_fields nt
  unfold berakna_nyckeltal berakna_step_roe
  rw [hek, har]
  rcases h1 : nt.eget_kapital with _ | ek <;> rcases h2 : nt.arets_resultat with _ | ar <;>
    simp only
  · exact hroe
  · exact hroe
  · exact hroe
  · split_ifs
    · rfl
    · exact hroe

/-- C4 (counterexample): with equity 100 and net income 0 — both present,
equity positive — the code leaves return on equity undefined (Python
truthiness: `0` fails the `arets_resultat and` guard), while the claim
says it equals `round((0/100)*100, 2) = 0`. -/
theorem c4_roe_counterexample :
    (berakna_nyckeltal nt4z).roe = none
    ∧ pyRound2Q (((0 : ℤ) : ℚ) / ((100 : ℤ) : ℚ) * 100) = 0 := by
  constructor
  · decide
  · have h0 : ((0 : ℤ) : ℚ) / ((100 : ℤ) : ℚ) * 100 = ((0 : ℤ) : ℚ) := by norm_num
    rw [h0, pyRound2Q_intCast]
    norm_num

/-- C4 (amended): return on equity is defined exactly when equity is
present and strictly positive and net income is present and nonzero; then
it equals `round((net_income / equity) * 100, 2)`.  It is undefined when
equity ≤ 0 or net income is absent — and also when net income is present
but zero. -/
theorem c4_roe_amended (nt : Nyckeltal) (h0 : nt.roe = none) :
    ((berakna_nyckeltal nt).roe ≠ none ↔
      ∃ ek ar : ℤ, nt.eget_kapital = some ek ∧ nt.arets_resultat = some ar ∧ 0 < ek ∧ ar ≠ 0)
    ∧ ∀ ek ar : ℤ, nt.eget_kapital = some ek → nt.arets_resultat = some ar → 0 < ek → ar ≠ 0 →
      (berakna_nyckeltal nt).roe = some (pyRound2Q ((ar : ℚ) / (ek : ℚ) * 100)) := by
  constructor
  · rw [berakna_roe nt]
    rcases hek : nt.eget_kapital with _ | ek <;> rcases har : nt.arets_resultat with _ | ar <;>
      simp only
    · simp [h0]
    · simp [h0]
    · simp [h0]
    · constructor
      · intro h
        split_ifs at h with hc
        · exact ⟨ek, ar, rfl, rfl, hc.2.2, hc.2.1⟩
        · exact absurd h0 h
      · rintro ⟨ek', ar', hek', har', hpos, hne⟩
        cases hek'
        cases har'
        rw [if_pos ⟨by omega, hne, hpos⟩]
        simp
  · intro ek ar hek har hpos hne
    rw [berakna_roe nt, hek, har]
    simp only
    rw [if_pos ⟨by omega, hne, hpos⟩]

/-- C4 (witness): equity −100 with net income 10 yields an undefined
return on equity; equity 200 with net income 10 yields 5.00. -/
theorem c4_roe_witness :
    (berakna_nyckeltal nt4a).roe = none ∧ (berakna_nyckeltal nt4b).roe = some 5 := by
  constructor
  · have h := (c4_roe_amended nt4a rfl).1
    by_contra hne
    obtain ⟨ek, ar, hek, har, hpos, -⟩ := h.mp hne
    have hv : nt4a.eget_kapital = some (-100) := rfl
    rw [hv] at hek
    injection hek with hval
    omega
  · have h := (c4_roe_amended nt4b rfl).2 200 10 rfl rfl (by norm_num) (by norm_num)
    rw [h]
    have hv : ((10 : ℤ) : ℚ) / ((200 : ℤ) : ℚ) * 100 = ((5 : ℤ) : ℚ) := by norm_num
    rw [hv, pyRound2Q_intCast]
    norm_num

/-- C5: over a most-recent-first series with `years = count − 1`, CAGR is
defined exactly when there are at least two values and both the oldest
(`values[-1]`) and newest (`values[0]`) values are strictly positive, and
then equals `round((((newest/oldest) ** (1/years)) - 1) * 100, 2)`. -/
theorem c5_cagr_spec :
    (∀ values : List ℤ,
      calculate_cagr values ((values.length : ℤ) - 1) ≠ none ↔
        2 ≤ values.length ∧ 0 < values.getLastD 0 ∧ 0 < values.headD 0)
    ∧ ∀ values : List ℤ, 2 ≤ values.length → 0 < values.getLastD 0 → 0 < values.headD 0 →
      calculate_cagr values ((values.length : ℤ) - 1) =
        some (pyRound2R (((((values.headD 0 : ℤ) : ℝ) / ((values.getLastD 0 : ℤ) : ℝ)) ^
          ((1 : ℝ) / ((((values.length : ℤ) - 1 : ℤ)) : ℝ)) - 1) * 100)) := by
  constructor
  · intro values
    simp only [calculate_cagr]
    split_ifs with h1 h2
    · constructor
      · intro hh
        exact absurd rfl hh
      · rintro ⟨hlen, -, -⟩
        rcases h1 with h | h | h
        · subst h
          simp at hlen
        · omega
        · omega
    · constructor
      · intro hh
        exact absurd rfl hh
      · rintro ⟨-, hs', he'⟩
        rcases h2 with h | h <;> linarith
    · push_neg at h1 h2
      exact ⟨fun _ => ⟨h1.2.1, h2.1, h2.2⟩, fun _ => Option.some_ne_none _⟩
  · intro values h2 hs he
    simp only [calculate_cagr]
    split_ifs with hg1 hg2
    · rcases hg1 with h | h | h
      · subst h
        simp at h2
      · omega
      · omega
    · rcases hg2 with h | h <;> linarith
    · rfl

/-- C5 (witness): CAGR over [1,000,000 (latest), 800,000 (oldest)] with
1 year is 25.0. -/
theorem c5_cagr_witness : calculate_cagr [1000000, 800000] 1 = some 25 := by
  have h := c5_cagr_spec.2 [1000000, 800000] (by decide) (by decide) (by decide)
  have hlen : ((([1000000, 800000] : List ℤ).length : ℤ) - 1) = 1 := by decide
  rw [hlen] at h
  rw [show (([1000000, 800000] : List ℤ).headD 0) = 1000000 from rfl,
    show (([1000000, 800000] : List ℤ).getLastD 0) = 800000 from rfl] at h
  rw [h]
  have hbase : ((1000000 : ℤ) : ℝ) / ((800000 : ℤ) : ℝ) = 5/4 := by norm_num
  have hexp : (1 : ℝ) / ((1 : ℤ) : ℝ) = 1 := by norm_num
  rw [hbase, hexp, Real.rpow_one]
  have harg : ((5 : ℝ)/4 - 1) * 100 = 25 := by norm_num
  rw [harg]
  have h25 : pyRound2R 25 = 25 := by
    unfold pyRound2R
    rw [show (25 : ℝ) * 100 = ((2500 : ℤ) : ℝ) by norm_num, pyRoundHalfEvenR_intCast]
    norm_num
  rw [h25]

/-- No rule other than rule 5 ever emits an `upprepade_forluster` flag. -/
theorem upp_filter_negativt (nt : Nyckeltal) :
    (flagga_negativt_eget nt).filter (fun f => f.typ == strL "upprepade_forluster") = [] := by
  unfold flagga_negativt_eget
  rcases nt.eget_kapital with _ | ek <;> dsimp only
  · rfl
  · split_ifs <;> rfl

theorem upp_filter_lagt (ak : Option ℤ) (nt : Nyckeltal) :
    (flagga_lagt_eget ak nt).filter (fun f => f.typ == strL "upprepade_forluster") = [] := by
  unfold flagga_lagt_eget
  rcases ak with _ | a <;> rcases nt.eget_kapital with _ | ek <;> dsimp only <;>
    first
      | rfl
      | (split_ifs <;> rfl)

theorem upp_filter_fallande (nt ntPrev : Nyckeltal) :
    (flagga_fallande nt ntPrev).filter (fun f => f.typ == strL "upprepade_forluster") = [] := by
  unfold flagga_fallande
  rcases nt.nettoomsattning with _ | no <;> rcases ntPrev.nettoomsattning with _ | noPrev <;>
    dsimp only <;>
    first
      | rfl
      | (split_ifs <;> rfl)

theorem upp_filter_soliditet (threshold : ℚ) (nt : Nyckeltal) :
    (flagga_soliditet threshold nt).filter (fun f => f.typ == strL "upprepade_forluster") = [] := by
  unfold flagga_soliditet
  rcases nt.soliditet with _ | s <;> dsimp only
  · rfl
  · split_ifs <;> rfl

theorem upp_filter_skuldsattning (nt : Nyckeltal) :
    (flagga_skuldsattning nt).filter (fun f => f.typ == strL "upprepade_forluster") = [] := by
  unfold flagga_skuldsattning
  rcases nt.eget_kapital with _ | ek <;> rcases nt.balansomslutning with _ | bal <;>
    dsimp only <;>
    first
      | rfl
      | (split_ifs <;> rfl)

theorem upp_filter_vinstmarginal (nt : Nyckeltal) :
    (flagga_vinstmarginal nt).filter (fun f => f.typ == strL "upprepade_forluster") = [] := by
  unfold flagga_vinstmarginal
  rcases nt.vinstmarginal with _ | v <;> dsimp only
  · rfl
  · split_ifs <;> rfl

/-- C7 (amended): the repeated-losses flag is emitted exactly when net
income is present and negative in at least 2 of the examined periods —
with no consecutiveness requirement — with severity `varning` when the
count is exactly 2 and `kritisk` otherwise. -/
theorem c7_repeated_losses_amended (nt ntPrev : Nyckeltal) (ak : Option ℤ) (nts : List Nyckeltal) :
    (roda_flaggor_pure nt ntPrev ak nts).filter (fun f => f.typ == strL "upprepade_forluster") =
      (if 2 ≤ negativeYearCount nts then
        [⟨strL "upprepade_forluster",
          if negativeYearCount nts = 2 then strL "varning" else strL "kritisk"⟩]
      else []) := by
  unfold roda_flaggor_pure
  rw [List.filter_append, List.filter_append, List.filter_append, List.filter_append,
    List.filter_append, List.filter_append]
  rw [upp_filter_negativt, upp_filter_lagt, upp_filter_fallande, upp_filter_soliditet,
    upp_filter_skuldsattning, upp_filter_vinstmarginal]
  simp only [List.nil_append, List.append_nil]
  unfold flagga_upprepade
  split_ifs <;> rfl

/-- C7 (counterexample): on a statement whose net income is negative only
in periods 0 and 2 (period 1 and 3 positive — no two consecutive loss
years), the engine still emits the repeated-losses warning, because it
counts negative years without requiring consecutiveness. -/
theorem c7_repeated_losses_counterexample :
    analyze_roda_flaggor doc7 = .ok [⟨strL "upprepade_forluster", strL "varning"⟩]
    ∧ aretsAt doc7 0 = .ok (some (-5)) ∧ aretsAt doc7 1 = .ok (some 10)
    ∧ aretsAt doc7 2 = .ok (some (-5)) ∧ aretsAt doc7 3 = .ok (some 10) := by
  exact ⟨by decide, by decide, by decide, by decide, by decide⟩

/-- C6 (amended): equity −50,000 yields exactly one critical negative-
equity flag, and equity 5,000,000 with solvency 10% yields exactly one
low-solvency warning and no critical flag, in both engines; negative
solvency yields exactly one critical flag in both engines. -/
theorem c6_risk_flags_amended :
    analyze_roda_flaggor doc6a = .ok [⟨strL "negativt_eget_kapital", strL "kritisk"⟩]
    ∧ analyze_roda_flaggor_fn nt6a none = [⟨strL "negativt_eget_kapital", strL "kritisk"⟩]
    ∧ analyze_roda_flaggor doc6b = .ok [⟨strL "lag_soliditet", strL "varning"⟩]
    ∧ analyze_roda_flaggor_fn nt6b none = [⟨strL "lag_soliditet", strL "varning"⟩]
    ∧ analyze_roda_flaggor doc6c = .ok [⟨strL "negativ_soliditet", strL "kritisk"⟩]
    ∧ analyze_roda_flaggor_fn nt6c none = [⟨strL "negativ_soliditet", strL "kritisk"⟩]
    ∧ get_nyckeltal doc6a (strL "period0") = .ok nt6a
    ∧ get_nyckeltal doc6b (strL "period0") = .ok nt6b := by
  exact ⟨by decide, by decide, by decide, by decide, by decide, by decide, by decide, by decide⟩

/-- C6 (counterexample): the two call sites do not share one canonical
low-solvency threshold.  On the same statement (solvency 17%), the parser
method (threshold 20) emits the warning while the standalone function
(threshold 15) emits nothing. -/
theorem c6_risk_flags_counterexample :
    get_nyckeltal doc6d (strL "period0") = .ok nt6d
    ∧ analyze_roda_flaggor doc6d = .ok [⟨strL "lag_soliditet", strL "varning"⟩]
    ∧ analyze_roda_flaggor_fn nt6d none = [] := by
  exact ⟨by decide, by decide, by decide⟩

/-- The flerårsdata loop, when every period record resolves, appends
exactly the periods whose revenue or net income is truthy — skipped
periods do not end the iteration. -/
theorem flerarsdataAux_ok (doc : List Tag) (f : ℕ → Nyckeltal) :
    ∀ (l : List ℕ) (acc : List (ℕ × Nyckeltal)),
      (∀ i ∈ l, get_nyckeltal doc (periodName i) = .ok (f i)) →
      flerarsdataAux doc l acc =
        .ok (acc ++ (l.filter (fun i =>
          truthy (f i).nettoomsattning || truthy (f i).arets_resultat)).map (fun i => (i, f i))) := by
  intro l
  induction l with
  | nil =>
    intro acc _
    simp [flerarsdataAux]
  | cons i rest ih =>
    intro acc h
    have hi : get_nyckeltal doc (periodName i) = .ok (f i) := h i (by simp)
    have hrest : ∀ j ∈ rest, get_nyckeltal doc (periodName j) = .ok (f j) :=
      fun j hj => h j (by simp [hj])
    unfold flerarsdataAux
    rw [hi]
    dsimp only
    by_cases hc : (truthy (f i).nettoomsattning || truthy (f i).arets_resultat) = true
    · rw [if_pos hc, ih _ hrest, List.filter_cons, if_pos hc, List.map_cons]
      simp [List.append_assoc]
    · rw [if_neg hc, ih _ hrest, List.filter_cons, if_neg hc]

/-- C8 (amended): the multi-period series iterates all period indices
0..4; each index contributes a record exactly when it yields truthy
revenue or net income; an index yielding neither is skipped but the
iteration continues, so later indices with data still appear. -/
theorem c8_series_amended (doc : List Tag) (f : ℕ → Nyckeltal)
    (h : ∀ i < 5, get_nyckeltal doc (periodName i) = .ok (f i)) :
    flerarsdata doc = .ok (((List.range 5).filter (fun i =>
      truthy (f i).nettoomsattning || truthy (f i).arets_resultat)).map (fun i => (i, f i))) := by
  unfold flerarsdata
  rw [flerarsdataAux_ok doc f (List.range 5) [] (fun i hi => h i (List.mem_range.mp hi)),
    List.nil_append]

/-- C8 (witness): on `doc8` (data in periods 0 and 2, nothing in period
1) the series consists of periods 0 and 2. -/
theorem c8_series_witness : flerarsdata doc8 = .ok [(0, nt8a), (2, nt8b)] := by
  have h := c8_series_amended doc8 f8 (by decide)
  exact h.trans (by decide)

/-- C8 (counterexample): period 1 yields neither revenue nor net income,
yet period 2 still appears in the series — the claim's "stops at the
first empty index" is wrong; the code filters and continues. -/
theorem c8_series_counterexample :
    flerarsPeriods doc8 = .ok [0, 2] ∧ hasRevenueOrIncome doc8 1 = .ok false := by
  exact ⟨by decide, by decide⟩

/-- The dedup loop of `get_personer` keeps the (first name, last name,
role) keys of its output pairwise distinct. -/
theorem dedupPersoner_pairwise :
    ∀ (cand : List Person) (seen : List (Str × Str × Str)) (out : List Person),
      (∀ p ∈ out, personKey p ∈ seen) →
      out.Pairwise (fun p q => personKey p ≠ personKey q) →
      (dedupPersoner cand seen out).Pairwise (fun p q => personKey p ≠ personKey q) := by
  intro cand
  induction cand with
  | nil =>
    intro seen out _ hp
    exact hp
  | cons p rest ih =>
    intro seen out hsub hp
    unfold dedupPersoner
    split_ifs with hc
    · apply ih
      · intro q hq
        rcases List.mem_append.mp hq with hq | hq
        · exact List.mem_append.mpr (Or.inl (hsub q hq))
        · simp only [List.mem_singleton] at hq
          subst hq
          exact List.mem_append.mpr (Or.inr (by simp))
      · rw [List.pairwise_append]
        refine ⟨hp, by simp, ?_⟩
        intro a ha b hb
        simp only [List.mem_singleton] at hb
        subst hb
        intro hkey
        exact hc.1 (hkey ▸ hsub a ha)
    · exact ih seen out hsub hp

/-- C9: roster deduplication — the returned records always have pairwise
distinct (first name, last name, role) keys; two composite records from
different tag families with identical key collapse to exactly one Person
record (`doc9b`), while the same name with differing roles yields two
records (`doc9c`). -/
theorem c9_person_dedup :
    (∀ doc : List Tag, (get_personer doc).Pairwise (fun p q => personKey p ≠ personKey q))
    ∧ get_personer doc9b = [⟨strL "Anna", strL "Svensson", strL "Styrelseledamot"⟩]
    ∧ get_personer doc9c =
      [⟨strL "Anna", strL "Svensson", strL "VD"⟩,
       ⟨strL "Anna", strL "Svensson", strL "Styrelseledamot"⟩] := by
  refine ⟨?_, by decide, by decide⟩
  intro doc
  exact dedupPersoner_pairwise (personCandidates doc) [] [] (by simp) (by simp)
